import Mathlib

/-!
Verification of the scraping/reconciliation engine.

The JavaScript source is shallowly embedded: JS numbers are modelled as
rationals (`ℚ`), with `Option ℚ` wherever `NaN` can arise (`none` = NaN);
JS objects holding post data are a fixed record of `JsVal` fields where
the constructor `undef` stands for an absent property.  Fallible code is
modelled with `Except`; network calls are oracles passed in as functions.
-/

/-- Model of the JavaScript values that flow through the data pipeline:
numbers (NaN kept separate since `ℚ` has no NaN), strings, `undefined`
and `null`. -/
inductive JsVal : Type
  | num (q : ℚ)
  | str (s : String)
  | nan
  | undef
  | nullv
deriving DecidableEq

namespace JsVal

/-- JS truthiness for the values of `JsVal` (`ToBoolean`). -/
def truthy : JsVal → Bool
  | .num q => q != 0
  | .str s => s != ""
  | .nan => false
  | .undef => false
  | .nullv => false

end JsVal

/-- Numeric value of a run of decimal digit characters. -/
def digitsVal (cs : List Char) : ℕ :=
  cs.foldl (fun n c => 10 * n + (c.toNat - '0'.toNat)) 0

/-- Strip leading and trailing whitespace from a character list (the
`String.trim` of JS, kept on lists so the kernel can evaluate it). -/
def trimChars (cs : List Char) : List Char :=
  ((cs.dropWhile Char.isWhitespace).reverse.dropWhile Char.isWhitespace).reverse

/-- Model of JavaScript `parseFloat` on a character list: skip leading
whitespace, optional sign, then the longest prefix `digits [. digits]`;
`none` when no digit is consumed (NaN).  Exponent and special forms are
outside the fragment the source feeds to it. -/
def parseFloatChars (cs0 : List Char) : Option ℚ :=
  let cs := cs0.dropWhile Char.isWhitespace
  let (sgn, cs) : ℚ × List Char :=
    match cs with
    | '-' :: r => (-1, r)
    | '+' :: r => (1, r)
    | _ => (1, cs)
  let ip := cs.takeWhile Char.isDigit
  let rest := cs.dropWhile Char.isDigit
  let fp :=
    match rest with
    | '.' :: r => r.takeWhile Char.isDigit
    | _ => []
  if ip.isEmpty && fp.isEmpty then none
  else some (sgn * ((digitsVal ip : ℚ) + (digitsVal fp : ℚ) / (10 ^ fp.length)))

/-- JavaScript `parseFloat` on a string. -/
def parseFloatQ (s : String) : Option ℚ :=
  parseFloatChars s.toList

/-- Model of JavaScript `Number(string)`: trim; empty string is `0`; else
the whole string must be `[sign] digits [. digits]` (the decimal fragment
the source relies on), otherwise NaN (`none`). -/
def strToNumber (s : String) : Option ℚ :=
  let cs := trimChars s.toList
  if cs.isEmpty then some 0
  else
    let (sgn, cs) : ℚ × List Char :=
      match cs with
      | '-' :: r => (-1, r)
      | '+' :: r => (1, r)
      | _ => (1, cs)
    let ip := cs.takeWhile Char.isDigit
    let rest := cs.dropWhile Char.isDigit
    let (fp, rest2) : List Char × List Char :=
      match rest with
      | '.' :: r => (r.takeWhile Char.isDigit, r.dropWhile Char.isDigit)
      | _ => ([], rest)
    if rest2.isEmpty && !(ip.isEmpty && fp.isEmpty) then
      some (sgn * ((digitsVal ip : ℚ) + (digitsVal fp : ℚ) / (10 ^ fp.length)))
    else none

/-- Model of JavaScript `Number(v)` (`ToNumber`); `none` is NaN. -/
def jsToNumber : JsVal → Option ℚ
  | .num q => some q
  | .str s => strToNumber s
  | .nan => none
  | .undef => none
  | .nullv => some 0

/-- `Number(v)` as a `JsVal` again (NaN representable). -/
def jsNumberVal (v : JsVal) : JsVal :=
  match jsToNumber v with
  | some q => .num q
  | none => .nan

/-- Model of JavaScript `v.toString()` for the values that reach it; the
rendering of a rational stands in for JS number-to-string (the pipeline
only ever calls it on strings). -/
def jsToString : JsVal → String
  | .num q => toString q
  | .str s => s
  | .nan => "NaN"
  | .undef => "undefined"
  | .nullv => "null"

/-- `Math.round`: round half toward positive infinity, computed on the
numerator/denominator so the kernel can evaluate it. -/
def jsRound (q : ℚ) : ℤ := (2 * q.num + q.den) / ((2 * q.den : ℕ) : ℤ)

lemma jsRound_eq_floor (q : ℚ) : jsRound q = ⌊q + 1 / 2⌋ := by
  have hd : (q.den : ℚ) ≠ 0 := by exact_mod_cast q.den_ne_zero
  have hd0 : (0 : ℚ) < (q.den : ℚ) := by exact_mod_cast q.pos
  have hv : (q.num : ℚ) = q * (q.den : ℚ) := (div_eq_iff hd).mp (Rat.num_div_den q)
  have h : (q + 1 / 2 : ℚ) = ((2 * q.num + (q.den : ℤ) : ℤ) : ℚ) / ((2 * q.den : ℕ) : ℚ) := by
    rw [eq_div_iff (by positivity)]
    push_cast
    rw [hv]
    ring
  rw [h, Rat.floor_intCast_div_natCast, jsRound]

/-- `jsRound` agrees with Mathlib's round-half-up function, i.e. the
semantics of `Math.round`. -/
lemma jsRound_eq_round (q : ℚ) : jsRound q = round q := by
  rw [jsRound_eq_floor, round_eq]

lemma jsRound_intCast (n : ℤ) : jsRound (n : ℚ) = n := by
  rw [jsRound_eq_round, round_intCast]

/-- A post object as it flows through the pipeline.  Every property a
pipeline function reads is present; `JsVal.undef` models an absent
property (reading a missing JS property yields `undefined`). -/
structure Post where
  username : String := ""
  platform : JsVal := .undef
  postLink : JsVal := .undef
  url : JsVal := .undef
  postedDate : JsVal := .undef
  date : JsVal := .undef
  comments : JsVal := .undef
  likes : JsVal := .undef
  views : JsVal := .undef
  share : JsVal := .undef
deriving DecidableEq

/-- The filter predicate of `calculateAverageViews`:
`!isNaN(Number(post.views)) && Number(post.views) >= 0`. -/
def viewsValid (p : Post) : Bool :=
  match jsToNumber p.views with
  | some q => decide (0 ≤ q)
  | none => false

/-- `calculateAverageViews` from `utils/dataProcessor.js`: `null` for an
empty input or when no post passes the views filter, otherwise
`Math.round` of the mean of the valid views. -/
def calculateAverageViews (posts : List Post) : Option ℤ :=
  if posts.isEmpty then none
  else
    let validPosts := posts.filter viewsValid
    if validPosts.isEmpty then none
    else
      let totalViews : ℚ := (validPosts.map (fun p => (jsToNumber p.views).getD 0)).sum
      some (jsRound (totalViews / validPosts.length))

/-- Modelled from the spec: "arithmetic mean of `viewsOrPlays` across the
selected posts, excluding entries with missing or invalid (non-numeric or
negative) values; result is `null` when zero valid entries remain;
rounded to the nearest integer otherwise."  Used only to compare against
`calculateAverageViews`. -/
def computeAverageSpec (posts : List Post) : Option ℤ :=
  let vs := posts.filterMap fun p =>
    (jsToNumber p.views).bind fun q => if 0 ≤ q then some q else none
  if vs.isEmpty then none
  else some (jsRound (vs.sum / vs.length))

lemma filterMap_views_eq (posts : List Post) :
    (posts.filterMap fun p =>
      (jsToNumber p.views).bind fun q => if 0 ≤ q then some q else none) =
      (posts.filter viewsValid).map (fun p => (jsToNumber p.views).getD 0) := by
  induction posts with
  | nil => rfl
  | cons p ps ih =>
    simp only [List.filterMap_cons, List.filter_cons]
    rcases hv : jsToNumber p.views with _ | q
    · simpa [viewsValid, hv] using ih
    · by_cases hq : 0 ≤ q
      · simpa [viewsValid, hv, hq] using ih
      · simpa [viewsValid, hv, hq] using ih

lemma calcAvg_example :
    calculateAverageViews [{ views := .num 100 }, { views := .str "bad" }] = some 100 := by
  have h : ([{ views := .num 100 }, { views := .str "bad" }] : List Post).filter viewsValid
      = [{ views := .num 100 }] := by decide
  unfold calculateAverageViews
  rw [h]
  simp only [List.isEmpty_cons, List.map_cons, List.map_nil, jsToNumber, Option.getD_some,
    List.sum_cons, List.sum_nil, List.length_cons, List.length_nil, Bool.false_eq_true,
    if_false]
  rw [show ((100 : ℚ) + 0) / ((0 + 1 : ℕ) : ℚ) = ((100 : ℤ) : ℚ) by push_cast; norm_num,
    jsRound_intCast]

/-- Claim C1: `calculateAverageViews` returns the arithmetic mean of the
valid (numeric, non-negative) views of the given posts rounded to the
nearest integer, `null` (never zero) when no valid entry remains; in
particular it is `null` on `[]` and `100` on
`[{views:100},{views:"bad"}]`. -/
theorem claim_C1_average :
    (∀ posts : List Post, calculateAverageViews posts = computeAverageSpec posts) ∧
    calculateAverageViews [] = none ∧
    calculateAverageViews [{ views := .num 100 }, { views := .str "bad" }] = some 100 := by
  refine ⟨fun posts => ?_, by decide, calcAvg_example⟩
  unfold calculateAverageViews computeAverageSpec
  rw [filterMap_views_eq]
  rcases hne : posts.isEmpty with _ | _
  · by_cases hf : posts.filter viewsValid = [] <;>
      simp [hne, hf, List.isEmpty_iff, List.map_eq_nil_iff]
  · have : posts = [] := by simpa using hne
    subst this
    rfl

/-! ### Recency selection (`filterLast10Posts`) -/

/-- Gregorian leap year. -/
def isLeapYear (y : ℤ) : Bool :=
  (y % 4 == 0 && y % 100 != 0) || y % 400 == 0

/-- Days in a month of the proleptic Gregorian calendar. -/
def daysInMonth (y m : ℤ) : ℤ :=
  if m = 2 then (if isLeapYear y then 29 else 28)
  else if m = 4 ∨ m = 6 ∨ m = 9 ∨ m = 11 then 30
  else 31

/-- Days since the Unix epoch of a civil date (standard civil-from-days
inverse; `/` on `ℤ` is floor division for the positive divisors used). -/
def daysFromCivil (y m d : ℤ) : ℤ :=
  let y' := if m ≤ 2 then y - 1 else y
  let era := y' / 400
  let yoe := y' - era * 400
  let mp := (m + 9) % 12
  let doy := (153 * mp + 2) / 5 + d - 1
  let doe := yoe * 365 + yoe / 4 - yoe / 100 + doy
  era * 146097 + doe - 719468

/-- Model of `Date.parse` restricted to the date-only ISO form
`YYYY-MM-DD` (interpreted as UTC midnight, in milliseconds); everything
else is an invalid date (`none`).  The source feeds ISO strings or
timestamps to `new Date`. -/
def parseDateStr (s : String) : Option ℤ :=
  match s.toList with
  | [y1, y2, y3, y4, '-', m1, m2, '-', d1, d2] =>
    if ([y1, y2, y3, y4, m1, m2, d1, d2].all Char.isDigit) then
      let y : ℤ := digitsVal [y1, y2, y3, y4]
      let m : ℤ := digitsVal [m1, m2]
      let d : ℤ := digitsVal [d1, d2]
      if 1 ≤ m ∧ m ≤ 12 ∧ 1 ≤ d ∧ d ≤ daysInMonth y m then
        some (86400000 * daysFromCivil y m d)
      else none
    else none
  | _ => none

/-- `new Date(v).getTime()`: `none` is an invalid date (NaN time value).
A numeric argument is truncated toward zero (`ToIntegerOrInfinity`);
`null` coerces to the epoch; `undefined` gives an invalid date. -/
def dateValue : JsVal → Option ℤ
  | .num q => some (q.num.tdiv q.den)
  | .str s => parseDateStr s
  | .nan => none
  | .undef => none
  | .nullv => some 0

/-- The comparator of `filterLast10Posts`: `new Date(b.postedDate) - new
Date(a.postedDate)`.  Any `NaN` operand makes the comparator value `NaN`,
which ECMAScript `SortCompare` coerces to `+0` — hence the catch-all `0`
branch. -/
def jsSortCompare (a b : Post) : ℤ :=
  match dateValue a.postedDate, dateValue b.postedDate with
  | some da, some db => db - da
  | _, _ => 0

/-- One step of a stable comparator sort: insert `x` into the already
sorted accumulator, after every element that does not compare strictly
greater (ES2019 `Array.prototype.sort` is stable). -/
def sortInsert (x : Post) : List Post → List Post
  | [] => [x]
  | y :: ys => if 0 < jsSortCompare y x then x :: y :: ys else y :: sortInsert x ys

/-- `[...posts].sort(comparator)` as a stable insertion sort. -/
def jsSort (posts : List Post) : List Post :=
  posts.foldl (fun acc x => sortInsert x acc) []

/-- `filterLast10Posts` from `utils/dataProcessor.js`: sort a copy by the
date comparator and take the first `count` (default 10). -/
def filterLast10Posts (posts : List Post) (count : ℕ := 10) : List Post :=
  if posts.isEmpty then [] else (jsSort posts).take count

lemma sortInsert_perm (x : Post) : ∀ l : List Post, (sortInsert x l).Perm (x :: l)
  | [] => List.Perm.refl _
  | y :: ys => by
    unfold sortInsert
    by_cases h : 0 < jsSortCompare y x
    · simp [h]
    · simp only [h, if_false]
      exact ((sortInsert_perm x ys).cons y).trans (List.Perm.swap x y ys)

lemma jsSort_perm (l : List Post) : (jsSort l).Perm l := by
  suffices h : ∀ (l acc : List Post),
      (l.foldl (fun acc x => sortInsert x acc) acc).Perm (acc ++ l) by
    simpa using h l []
  intro l
  induction l with
  | nil => intro acc; simp
  | cons x xs ih =>
    intro acc
    refine (ih (sortInsert x acc)).trans ?_
    refine (List.Perm.append_right xs (sortInsert_perm x acc)).trans ?_
    simpa using (@List.perm_middle Post x acc xs).symm

lemma jsSortCompare_antisymm {x y : Post} (h : 0 < jsSortCompare y x) :
    jsSortCompare x y ≤ 0 := by
  unfold jsSortCompare at h ⊢
  rcases hx : dateValue x.postedDate with _ | dx <;>
    rcases hy : dateValue y.postedDate with _ | dy <;>
      simp only [hx, hy] at h ⊢ <;> omega

lemma sortInsert_chain {x : Post} : ∀ {l : List Post},
    List.Chain' (fun a b => jsSortCompare a b ≤ 0) l →
    List.Chain' (fun a b => jsSortCompare a b ≤ 0) (sortInsert x l) := by
  intro l
  induction l with
  | nil => intro _; simp [sortInsert]
  | cons y ys ih =>
    intro hc
    unfold sortInsert
    by_cases h : 0 < jsSortCompare y x
    · simp only [h, if_true]
      exact List.chain'_cons.mpr ⟨jsSortCompare_antisymm h, hc⟩
    · simp only [h, if_false]
      rw [List.chain'_cons']
      refine ⟨?_, ih hc.tail⟩
      intro z hz
      cases ys with
      | nil =>
        simp only [sortInsert, List.head?_cons, Option.mem_def, Option.some_inj] at hz
        subst hz
        omega
      | cons w ws =>
        by_cases h2 : 0 < jsSortCompare w x
        · simp only [sortInsert, h2, if_true, List.head?_cons, Option.mem_def,
            Option.some_inj] at hz
          subst hz
          omega
        · simp only [sortInsert, h2, if_false, List.head?_cons, Option.mem_def,
            Option.some_inj] at hz
          subst hz
          exact (List.chain'_cons.mp hc).1

lemma jsSort_chain (l : List Post) :
    List.Chain' (fun a b => jsSortCompare a b ≤ 0) (jsSort l) := by
  suffices h : ∀ (l acc : List Post),
      List.Chain' (fun a b => jsSortCompare a b ≤ 0) acc →
      List.Chain' (fun a b => jsSortCompare a b ≤ 0)
        (l.foldl (fun acc x => sortInsert x acc) acc) by
    exact h l [] (by simp)
  intro l
  induction l with
  | nil => intro acc h; simpa using h
  | cons x xs ih => intro acc h; exact ih _ (sortInsert_chain h)

/-- Concrete posts with three strictly decreasing dates (D1 > D2 > D3). -/
def postD1 : Post := { postLink := .str "https://example.com/p/1", postedDate := .str "2024-03-12" }

def postD2 : Post := { postLink := .str "https://example.com/p/2", postedDate := .str "2024-03-11" }

def postD3 : Post := { postLink := .str "https://example.com/p/3", postedDate := .str "2023-12-31" }

/-- A post whose `postedDate` does not parse (invalid date). -/
def postBadDate : Post := { postLink := .str "https://example.com/p/x", postedDate := .str "not-a-date" }

/-- A post with a valid (newest possible among the pair) date. -/
def postNewest : Post := { postLink := .str "https://example.com/p/n", postedDate := .num 1000 }

/-- Claim C3, counterexample: a post whose `postedDate` is unparseable
does not sort as oldest — its comparison is `NaN`, coerced to `0`, so the
stable sort keeps it in front of a strictly dated post instead of moving
it last. -/
theorem claim_C3_counterexample :
    dateValue postBadDate.postedDate = none ∧
    dateValue postNewest.postedDate = some 1000 ∧
    filterLast10Posts [postBadDate, postNewest] 2 = [postBadDate, postNewest] ∧
    filterLast10Posts [postBadDate, postNewest] 2 ≠ [postNewest, postBadDate] := by
  refine ⟨by decide, by decide, by decide, by decide⟩

/-- Claim C3, amended: `filterLast10Posts` sorts a copy of the posts with
the stable JS sort under the date-descending comparator and returns the
first `count` (default 10): the result is a permutation prefix whose
consecutive elements never compare strictly increasing in date, and for
posts dated D1 > D2 > D3 with N = 2 the result is exactly [D1, D2]
whatever the input order.  A post with a missing or unparseable
`postedDate` does not sort as oldest: its comparison is `NaN`, which the
sort treats as equality, so the stable sort keeps its relative position
(and it never causes an error). -/
theorem claim_C3_amended :
    (∀ (posts : List Post) (count : ℕ),
        (jsSort posts).Perm posts ∧
        filterLast10Posts posts count = (jsSort posts).take count ∧
        List.Chain' (fun a b => jsSortCompare a b ≤ 0) (jsSort posts)) ∧
    (∀ l ∈ [[postD1, postD2, postD3], [postD1, postD3, postD2], [postD2, postD1, postD3],
        [postD2, postD3, postD1], [postD3, postD1, postD2], [postD3, postD2, postD1]],
      filterLast10Posts l 2 = [postD1, postD2]) ∧
    jsSortCompare postBadDate postNewest = 0 ∧
    filterLast10Posts [postBadDate, postNewest] 2 = [postBadDate, postNewest] := by
  refine ⟨fun posts count => ⟨jsSort_perm posts, ?_, jsSort_chain posts⟩, ?_, by decide, by decide⟩
  · unfold filterLast10Posts
    rcases h : posts.isEmpty with _ | _
    · simp [h]
    · have : posts = [] := by simpa using h
      subst this
      simp [jsSort]
  · intro l hl
    simp only [List.mem_cons, List.not_mem_nil, or_false] at hl
    rcases hl with rfl | rfl | rfl | rfl | rfl | rfl <;> decide

/-- Witness for claim C3: the concrete three-post instance, in one
scrambled order, selects exactly [D1, D2]. -/
theorem claim_C3_witness : filterLast10Posts [postD3, postD1, postD2] 2 = [postD1, postD2] :=
  claim_C3_amended.2.1 [postD3, postD1, postD2] (by decide)

/-! ### Reconciliation (`deduplicatePosts`) -/

/-- `post.postLink?.toString().trim()`: `undefined` when `postLink` is
null/undefined (optional chaining), otherwise the trimmed string form. -/
def rawLink (p : Post) : Option String :=
  match p.postLink with
  | .undef => none
  | .nullv => none
  | v => some (String.mk (trimChars (jsToString v).toList))

/-- The resolvable link of a fresh post: the trimmed link when it is a
non-empty string (`if (!postLink)` skips undefined and the empty
string). -/
def resolvedLink (p : Post) : Option String :=
  (rawLink p).bind fun s => if s = "" then none else some s

/-- Body of the `forEach` in `deduplicatePosts`: drop a post without a
resolvable link, push onto `toUpdate` when the link is already known,
onto `toAppend` otherwise. -/
def dedupStep (existingPostLinks : List (Option String))
    (acc : List Post × List Post) (post : Post) : List Post × List Post :=
  match rawLink post with
  | none => acc
  | some link =>
    if link = "" then acc
    else if some link ∈ existingPostLinks then (acc.1, acc.2 ++ [post])
    else (acc.1 ++ [post], acc.2)

/-- `deduplicatePosts` from `utils/dataProcessor.js`: partition the fresh
posts against the set of existing trimmed post links. -/
def deduplicatePosts (existingPosts newPosts : List Post) : List Post × List Post :=
  if newPosts.isEmpty then ([], [])
  else
    let existingPostLinks := existingPosts.map rawLink
    newPosts.foldl (dedupStep existingPostLinks) ([], [])

/-- Predicate for the fresh posts that land in `toAppend`. -/
def dedupAppendPred (existingPosts : List Post) (p : Post) : Bool :=
  (resolvedLink p).isSome && !(decide (resolvedLink p ∈ existingPosts.map rawLink))

/-- Predicate for the fresh posts that land in `toUpdate`. -/
def dedupUpdatePred (existingPosts : List Post) (p : Post) : Bool :=
  (resolvedLink p).isSome && decide (resolvedLink p ∈ existingPosts.map rawLink)

lemma dedupStep_foldl (e : List Post) :
    ∀ (f : List Post) (acc : List Post × List Post),
      f.foldl (dedupStep (e.map rawLink)) acc =
        (acc.1 ++ f.filter (dedupAppendPred e), acc.2 ++ f.filter (dedupUpdatePred e)) := by
  intro f
  induction f with
  | nil => intro acc; simp
  | cons p ps ih =>
    intro acc
    rw [List.foldl_cons, List.filter_cons, List.filter_cons, ih]
    rcases hr : rawLink p with _ | l
    · have hres : resolvedLink p = none := by rw [resolvedLink, hr]; rfl
      simp [dedupStep, hr, dedupAppendPred, dedupUpdatePred, hres]
    · by_cases hl : l = ""
      · have hres : resolvedLink p = none := by rw [resolvedLink, hr]; simp [hl]
        simp [dedupStep, hr, hl, dedupAppendPred, dedupUpdatePred, hres]
      · have hres : resolvedLink p = some l := by rw [resolvedLink, hr]; simp [hl]
        by_cases hmem : some l ∈ e.map rawLink
        · simp [dedupStep, hr, hl, hmem, dedupAppendPred, dedupUpdatePred, hres]
        · simp [dedupStep, hr, hl, hmem, dedupAppendPred, dedupUpdatePred, hres]

lemma dedup_eq (e f : List Post) :
    deduplicatePosts e f = (f.filter (dedupAppendPred e), f.filter (dedupUpdatePred e)) := by
  unfold deduplicatePosts
  rcases hne : f.isEmpty with _ | _
  · rw [if_neg (by simp [hne]), dedupStep_foldl]
    simp
  · have : f = [] := by simpa using hne
    subst this
    simp

/-- Claim C2: `deduplicatePosts` partitions the fresh posts — every
`toAppend` element's resolved link is absent from the existing posts'
links; every fresh post with a resolvable (non-empty trimmed) link lands
in exactly one of `toUpdate` (link known) or `toAppend` (link new); a
fresh post without a resolvable link is excluded from both. -/
theorem claim_C2_dedup (existingPosts newPosts : List Post) :
    (∀ p ∈ (deduplicatePosts existingPosts newPosts).1,
       ∃ l, resolvedLink p = some l ∧ ∀ q ∈ existingPosts, rawLink q ≠ some l) ∧
    (∀ p ∈ newPosts, ∀ l, resolvedLink p = some l →
       ((∃ q ∈ existingPosts, rawLink q = some l) →
          p ∈ (deduplicatePosts existingPosts newPosts).2 ∧
          p ∉ (deduplicatePosts existingPosts newPosts).1) ∧
       ((¬ ∃ q ∈ existingPosts, rawLink q = some l) →
          p ∈ (deduplicatePosts existingPosts newPosts).1 ∧
          p ∉ (deduplicatePosts existingPosts newPosts).2)) ∧
    (∀ p ∈ newPosts, resolvedLink p = none →
       p ∉ (deduplicatePosts existingPosts newPosts).1 ∧
       p ∉ (deduplicatePosts existingPosts newPosts).2) := by
  rw [dedup_eq]
  refine ⟨?_, ?_, ?_⟩
  · intro p hp
    rw [List.mem_filter] at hp
    obtain ⟨hpn, hpred⟩ := hp
    unfold dedupAppendPred at hpred
    rcases hres : resolvedLink p with _ | l
    · rw [hres] at hpred; simp at hpred
    · refine ⟨l, rfl, ?_⟩
      intro q hq hlq
      rw [hres] at hpred
      simp only [Option.isSome_some, Bool.true_and, Bool.not_eq_true',
        decide_eq_false_iff_not, List.mem_map] at hpred
      exact hpred ⟨q, hq, hlq⟩
  · intro p hpn l hres
    constructor
    · intro hex
      constructor
      · rw [List.mem_filter]
        refine ⟨hpn, ?_⟩
        simp only [dedupUpdatePred, hres, Option.isSome_some, Bool.true_and,
          decide_eq_true_eq, List.mem_map]
        exact hex
      · rw [List.mem_filter]
        rintro ⟨-, hpred⟩
        simp only [dedupAppendPred, hres, Option.isSome_some, Bool.true_and,
          Bool.not_eq_true', decide_eq_false_iff_not, List.mem_map] at hpred
        exact hpred hex
    · intro hex
      constructor
      · rw [List.mem_filter]
        refine ⟨hpn, ?_⟩
        simp only [dedupAppendPred, hres, Option.isSome_some, Bool.true_and,
          Bool.not_eq_true', decide_eq_false_iff_not, List.mem_map]
        exact hex
      · rw [List.mem_filter]
        rintro ⟨-, hpred⟩
        simp only [dedupUpdatePred, hres, Option.isSome_some, Bool.true_and,
          decide_eq_true_eq, List.mem_map] at hpred
        exact hex hpred
  · intro p hpn hres
    constructor
    · rw [List.mem_filter]
      rintro ⟨-, hpred⟩
      simp [dedupAppendPred, hres] at hpred
    · rw [List.mem_filter]
      rintro ⟨-, hpred⟩
      simp [dedupUpdatePred, hres] at hpred

/-- The spec's reconciliation scenario: an existing post with link "A". -/
def postA1 : Post := { postLink := .str "A", views := .num 100 }

/-- The fresh observation of link "A" with refreshed stats. -/
def postA2 : Post := { postLink := .str "A", views := .num 150 }

/-- A fresh post with the new link "B". -/
def postB : Post := { postLink := .str "B", views := .num 200 }

/-- Witness for claim C2: on existing = [A], fresh = [A', B], the fresh A
is classified `toUpdate` (and not `toAppend`) and B is classified
`toAppend`. -/
theorem claim_C2_witness :
    postA2 ∈ (deduplicatePosts [postA1] [postA2, postB]).2 ∧
    postA2 ∉ (deduplicatePosts [postA1] [postA2, postB]).1 ∧
    postB ∈ (deduplicatePosts [postA1] [postA2, postB]).1 := by
  have h := claim_C2_dedup [postA1] [postA2, postB]
  have hA := (h.2.1 postA2 (by decide) "A" (by decide)).1 ⟨postA1, by decide, by decide⟩
  have hB := (h.2.1 postB (by decide) "B" (by decide)).2 (by decide)
  exact ⟨hA.1, hA.2, hB.1⟩

lemma filter_disjoint_append_perm (pA pU : Post → Bool)
    (hdisj : ∀ x, pA x = true → pU x = false) :
    ∀ l : List Post,
      (l.filter pA ++ l.filter pU).Perm (l.filter fun x => pA x || pU x) := by
  intro l
  induction l with
  | nil => simp
  | cons x xs ih =>
    rcases hA : pA x with _ | _
    · rcases hU : pU x with _ | _
      · simpa [List.filter_cons, hA, hU] using ih
      · simp only [List.filter_cons, hA, hU, Bool.false_or, cond_true, cond_false]
        exact List.perm_middle.trans (ih.cons x)
    · have hU : pU x = false := hdisj x hA
      simp only [List.filter_cons, hA, hU, Bool.true_or, cond_true, cond_false]
      exact ih.cons x

lemma filterMap_filter_isSome (l : List Post) :
    ((l.filter fun p => (resolvedLink p).isSome).filterMap resolvedLink) =
      l.filterMap resolvedLink := by
  induction l with
  | nil => rfl
  | cons p ps ih =>
    rcases h : resolvedLink p with _ | s <;>
      simp [List.filter_cons, List.filterMap_cons, h, ih]

/-- Claim C8, amended: provided the fresh posts carry pairwise-distinct
resolvable postLinks (the scraper layer dedupes observed links within one
fetch), the reconciled output of `deduplicatePosts` keeps at most one
post record per postLink: `toAppend ++ toUpdate` has no repeated
resolvable link, every record in it has a resolvable link, and no
`toAppend` link collides with any existing post's link.  (Without the
distinctness premise the claim fails: see the counterexample.) -/
theorem claim_C8_amended (existingPosts newPosts : List Post)
    (h : (newPosts.filterMap resolvedLink).Nodup) :
    (((deduplicatePosts existingPosts newPosts).1 ++
        (deduplicatePosts existingPosts newPosts).2).filterMap resolvedLink).Nodup ∧
    (∀ p ∈ (deduplicatePosts existingPosts newPosts).1 ++
        (deduplicatePosts existingPosts newPosts).2, (resolvedLink p).isSome) ∧
    (∀ p ∈ (deduplicatePosts existingPosts newPosts).1, ∀ q ∈ existingPosts,
        rawLink q ≠ resolvedLink p) := by
  rw [dedup_eq]
  have hdisj : ∀ x, dedupAppendPred existingPosts x = true →
      dedupUpdatePred existingPosts x = false := by
    intro x hx
    unfold dedupAppendPred at hx
    unfold dedupUpdatePred
    rw [Bool.and_eq_true] at hx
    obtain ⟨h1, h2⟩ := hx
    rw [h1, Bool.true_and]
    simpa using h2
  have hperm := filter_disjoint_append_perm (dedupAppendPred existingPosts)
    (dedupUpdatePred existingPosts) hdisj newPosts
  have hor : (newPosts.filter fun x =>
      dedupAppendPred existingPosts x || dedupUpdatePred existingPosts x) =
      newPosts.filter fun p => (resolvedLink p).isSome := by
    apply List.filter_congr
    intro x _
    unfold dedupAppendPred dedupUpdatePred
    rcases hs : (resolvedLink x).isSome with _ | _
    · simp [hs]
    · rcases hm : decide (resolvedLink x ∈ existingPosts.map rawLink) with _ | _ <;>
        simp [hs, hm]
  refine ⟨?_, ?_, ?_⟩
  · have := (hperm.filterMap resolvedLink).nodup_iff
    rw [this, hor, filterMap_filter_isSome]
    exact h
  · intro p hp
    rcases List.mem_append.mp hp with hp1 | hp2
    · have hx := (List.mem_filter.mp hp1).2
      unfold dedupAppendPred at hx
      rw [Bool.and_eq_true] at hx
      exact hx.1
    · have hx := (List.mem_filter.mp hp2).2
      unfold dedupUpdatePred at hx
      rw [Bool.and_eq_true] at hx
      exact hx.1
  · intro p hp q hq
    obtain ⟨hpn, hpred⟩ := List.mem_filter.mp hp
    rcases hres : resolvedLink p with _ | l
    · unfold dedupAppendPred at hpred
      rw [hres] at hpred
      simp at hpred
    · intro hcontra
      unfold dedupAppendPred at hpred
      rw [hres] at hpred
      simp only [Option.isSome_some, Bool.true_and, Bool.not_eq_true',
        decide_eq_false_iff_not, List.mem_map] at hpred
      exact hpred ⟨q, hq, hcontra⟩

/-- Two distinct fresh posts sharing one postLink. -/
def dupPostA : Post := { postLink := .str "https://example.com/p/dup", likes := .num 1 }

/-- Second fresh post with the same postLink as `dupPostA`. -/
def dupPostB : Post := { postLink := .str "https://example.com/p/dup", likes := .num 2 }

/-- Claim C8, counterexample: when the fresh list itself repeats a
postLink, `deduplicatePosts` appends both copies, so the reconciled
output holds two records with the same resolvable link, violating the
at-most-one-post-per-link invariant as claimed. -/
theorem claim_C8_counterexample :
    deduplicatePosts [] [dupPostA, dupPostB] = ([dupPostA, dupPostB], []) ∧
    resolvedLink dupPostA = resolvedLink dupPostB ∧
    (resolvedLink dupPostA).isSome = true ∧
    ¬ ((((deduplicatePosts [] [dupPostA, dupPostB]).1 ++
        (deduplicatePosts [] [dupPostA, dupPostB]).2).filterMap resolvedLink).Nodup) := by
  refine ⟨by decide, by decide, by decide, by decide⟩

/-- Witness for claim C8: with distinct fresh links (the spec scenario),
the reconciled output carries no duplicate link. -/
theorem claim_C8_witness :
    (((deduplicatePosts [postA1] [postA2, postB]).1 ++
        (deduplicatePosts [postA1] [postA2, postB]).2).filterMap resolvedLink).Nodup :=
  (claim_C8_amended [postA1] [postA2, postB] (by decide)).1

/-! ### Numeric normalizer (`extractNumber`) -/

/-- `value.toLowerCase().trim()` of `extractNumber`, on characters. -/
def lowerTrim (s : String) : List Char :=
  trimChars (s.toList.map Char.toLower)

/-- `extractNumber` from `baseScraper.js` / `scrapingStrategy.js` (the two
copies are textually identical): numbers pass through, strings are
lower-cased and trimmed, a `k`/`m`/`b` suffix scales the `parseFloat`
prefix with `Math.round`, otherwise commas are stripped and the string is
parsed, `NaN` falling back to `0`.  `none` is NaN (`Math.round(NaN)`). -/
def extractNumber (value : JsVal) : Option ℚ :=
  match value with
  | .num q => some q
  | .nan => none
  | .str s =>
    let lowerValue := lowerTrim s
    if lowerValue.getLast? = some 'k' then
      (parseFloatChars lowerValue).map fun q => ((jsRound (q * 1000) : ℤ) : ℚ)
    else if lowerValue.getLast? = some 'm' then
      (parseFloatChars lowerValue).map fun q => ((jsRound (q * 1000000) : ℤ) : ℚ)
    else if lowerValue.getLast? = some 'b' then
      (parseFloatChars lowerValue).map fun q => ((jsRound (q * 1000000000) : ℤ) : ℚ)
    else
      match parseFloatChars (lowerValue.filter fun c => c ≠ ',') with
      | none => some 0
      | some q => some q
  | _ => some 0

/-- Claim C10: the numeric normalizer parses suffixed count strings —
"1.2K" gives 1200 and "3.5M" gives 3500000 — returns numeric input
unchanged, and strips comma thousands separators from plain numeric
strings before parsing. -/
theorem claim_C10_extractNumber :
    extractNumber (.str "1.2K") = some 1200 ∧
    extractNumber (.str "3.5M") = some 3500000 ∧
    (∀ q : ℚ, extractNumber (.num q) = some q) ∧
    extractNumber (.str "1,234,567") = some 1234567 := by
  refine ⟨?_, ?_, fun q => rfl, ?_⟩
  · have hstep : extractNumber (.str "1.2K")
        = some ((jsRound (((1 : ℚ) * ((digitsVal ['1'] : ℚ) + (digitsVal ['2'] : ℚ) / 10 ^ (1 : ℕ)))
            * 1000) : ℤ) : ℚ) := rfl
    rw [hstep]
    rw [show ((1 : ℚ) * ((digitsVal ['1'] : ℚ) + (digitsVal ['2'] : ℚ) / 10 ^ (1 : ℕ))) * 1000
        = ((1200 : ℤ) : ℚ) by
      norm_num [show digitsVal ['1'] = 1 from rfl, show digitsVal ['2'] = 2 from rfl]]
    rw [jsRound_intCast]
    norm_num
  · have hstep : extractNumber (.str "3.5M")
        = some ((jsRound (((1 : ℚ) * ((digitsVal ['3'] : ℚ) + (digitsVal ['5'] : ℚ) / 10 ^ (1 : ℕ)))
            * 1000000) : ℤ) : ℚ) := rfl
    rw [hstep]
    rw [show ((1 : ℚ) * ((digitsVal ['3'] : ℚ) + (digitsVal ['5'] : ℚ) / 10 ^ (1 : ℕ))) * 1000000
        = ((3500000 : ℤ) : ℚ) by
      norm_num [show digitsVal ['3'] = 3 from rfl, show digitsVal ['5'] = 5 from rfl]]
    rw [jsRound_intCast]
    norm_num
  · have hstep : extractNumber (.str "1,234,567")
        = some ((1 : ℚ) * ((digitsVal ['1', '2', '3', '4', '5', '6', '7'] : ℚ)
            + (digitsVal [] : ℚ) / 10 ^ (0 : ℕ))) := rfl
    rw [hstep]
    norm_num [show digitsVal ['1', '2', '3', '4', '5', '6', '7'] = 1234567 from rfl,
      show digitsVal [] = 0 from rfl]

/-! ### Transport retry loops (`RapidApiStrategy.makeRequest`,
`MetaApiStrategy.makeRequest`/`handleError`) -/

/-- Error classes a RapidAPI transport call can fail with (per
`handleError`: 404, 403, 429, or anything else). -/
inductive RApiError : Type
  | notFound
  | forbidden
  | rateLimited
  | serverError
  | timeout
deriving DecidableEq

/-- The recursion of `RapidApiStrategy.makeRequest`, indexed by the
number of retries still allowed (`retryAttempts - attempt`; the source's
`isLastAttempt` is `attempt >= retryAttempts`, i.e. `remaining = 0`).
`resp k` is the outcome of the k-th physical attempt.  Returns the final
outcome and the list of backoff delays slept, in milliseconds
(`Math.pow(2, attempt - 1) * 1000`).  Note the catch block never inspects
the error: every failure is retried alike. -/
def rapidGo {α ε : Type} (resp : ℕ → Except ε α) : ℕ → ℕ → Except ε α × List ℕ
  | remaining, attempt =>
    match resp attempt with
    | .ok d => (.ok d, [])
    | .error e =>
      match remaining with
      | 0 => (.error e, [])
      | r + 1 =>
        let rec_ := rapidGo resp r (attempt + 1)
        (rec_.1, 2 ^ (attempt - 1) * 1000 :: rec_.2)

/-- `RapidApiStrategy.makeRequest(options, attempt)` with the configured
retry budget. -/
def rapidMakeRequest {α ε : Type} (retryAttempts : ℕ) (resp : ℕ → Except ε α)
    (attempt : ℕ := 1) : Except ε α × List ℕ :=
  rapidGo resp (retryAttempts - attempt) attempt

/-- The error signal of a Meta Graph API failure:
`error.response?.data?.error?.code` plus whether the underlying error is
an axios timeout (`error.code === 'ECONNABORTED'`). -/
structure MetaSignal where
  code : Option ℤ := none
  connAborted : Bool := false
deriving DecidableEq

/-- What `MetaApiStrategy.handleError` can throw. -/
inductive MetaFailure : Type
  | tokenExpired
  | invalidParam
  | permissionError
  | exhausted
deriving DecidableEq

/-- The mutual recursion of `MetaApiStrategy.makeRequest`/`handleError`,
indexed by the remaining retries (`maxRetries - attempt`; the source
retries only while `attempt < maxRetries`).  Token-expired (190), invalid
parameter (100) and permission (10) errors throw immediately; only rate
limits (codes 4 and 17) and timeouts are retried, with backoff
`baseDelay * Math.pow(2, attempt - 1)`; any other failure throws the
failed-after-N-attempts error without retrying. -/
def metaGo {α : Type} (resp : ℕ → Except MetaSignal α) :
    ℕ → ℕ → Except MetaFailure α × List ℕ
  | remaining, attempt =>
    match resp attempt with
    | .ok d => (.ok d, [])
    | .error sig =>
      if sig.code = some 190 then (.error .tokenExpired, [])
      else if sig.code = some 100 then (.error .invalidParam, [])
      else if sig.code = some 10 then (.error .permissionError, [])
      else
        match remaining with
        | 0 => (.error .exhausted, [])
        | r + 1 =>
          if sig.code = some 4 ∨ sig.code = some 17 ∨ sig.connAborted then
            let rec_ := metaGo resp r (attempt + 1)
            (rec_.1, 1000 * 2 ^ (attempt - 1) :: rec_.2)
          else (.error .exhausted, [])

/-- `MetaApiStrategy.makeRequest(options, attempt)` (maxRetries = 3 in
the source constructor, kept as a parameter). -/
def metaMakeRequest {α : Type} (maxRetries : ℕ) (resp : ℕ → Except MetaSignal α)
    (attempt : ℕ := 1) : Except MetaFailure α × List ℕ :=
  metaGo resp (maxRetries - attempt) attempt

lemma rapidGo_const_error {α ε : Type} (resp : ℕ → Except ε α) (e : ε)
    (hresp : ∀ k, resp k = .error e) :
    ∀ (r a : ℕ), 1 ≤ a →
      rapidGo resp r a = (.error e, (List.range r).map fun k => 2 ^ (a - 1 + k) * 1000) := by
  intro r
  induction r with
  | zero => intro a _; rw [rapidGo, hresp a]; rfl
  | succ n ih =>
    intro a ha
    rw [rapidGo, hresp a]
    simp only [ih (a + 1) (by omega), List.range_succ_eq_map, List.map_cons, List.map_map,
      Nat.add_zero, Prod.mk.injEq, List.cons.injEq, true_and]
    refine List.map_congr_left ?_
    intro k _
    simp only [Function.comp_apply]
    congr 2
    omega

/-- A transport oracle that fails with 404 on every attempt. -/
def alwaysNotFound : ℕ → Except RApiError ℕ := fun _ => .error .notFound

/-- A transport oracle that fails with a 5xx on every attempt. -/
def alwaysServerError : ℕ → Except RApiError ℕ := fun _ => .error .serverError

/-- A Meta oracle that fails with permission error code 10 on every
attempt. -/
def alwaysPermissionError : ℕ → Except MetaSignal ℕ :=
  fun _ => .error { code := some 10, connAborted := false }

/-- Claim C5, counterexample: the RapidAPI retry loop retries a
not-found failure — a non-transient error — twice (backoffs 1000 ms and
2000 ms slept) before giving up, where the claim says non-transient
failures are never retried. -/
theorem claim_C5_counterexample :
    rapidMakeRequest 3 alwaysNotFound 1 = (.error .notFound, [1000, 2000]) ∧
    ([1000, 2000] : List ℕ) ≠ [] := by
  constructor
  · rfl
  · decide

/-- Claim C5, amended: both transport strategies retry up to the
configured attempt budget with exponential backoff starting at 1s and
doubling (1s, 2s, 4s, ...).  However the retry *classification* differs
from the claim: the RapidAPI strategy retries **every** failure alike
(its catch block never inspects the error), while the Meta strategy
retries only rate-limit (codes 4/17) and timeout failures, throws
immediately on token-expired/invalid-parameter/permission errors, and
does **not** retry other failures such as plain 5xx errors. -/
theorem claim_C5_amended :
    (∀ (M : ℕ) (e : RApiError) (resp : ℕ → Except RApiError ℕ), 1 ≤ M →
        (∀ k, resp k = .error e) →
        rapidMakeRequest M resp 1
          = (.error e, (List.range (M - 1)).map fun k => 2 ^ k * 1000)) ∧
    (∀ (M : ℕ) (resp : ℕ → Except RApiError ℕ) (d : ℕ), resp 1 = .ok d →
        rapidMakeRequest M resp 1 = (.ok d, [])) ∧
    (∀ (M : ℕ) (resp : ℕ → Except MetaSignal ℕ) (sig : MetaSignal),
        resp 1 = .error sig → sig.code = some 10 →
        metaMakeRequest M resp 1 = (.error .permissionError, [])) ∧
    (∀ (M : ℕ) (resp : ℕ → Except MetaSignal ℕ) (sig : MetaSignal) (d : ℕ), 2 ≤ M →
        resp 1 = .error sig → sig.code = some 4 →
        resp 2 = .ok d →
        metaMakeRequest M resp 1 = (.ok d, [1000])) ∧
    (∀ (M : ℕ) (resp : ℕ → Except MetaSignal ℕ),
        resp 1 = .error { code := none, connAborted := false } →
        metaMakeRequest M resp 1 = (.error .exhausted, [])) := by
  refine ⟨?_, ?_, ?_, ?_, ?_⟩
  · intro M e resp hM hresp
    rw [rapidMakeRequest, rapidGo_const_error resp e hresp (M - 1) 1 le_rfl]
    simp only [Prod.mk.injEq, true_and]
    refine List.map_congr_left ?_
    intro k _
    norm_num
  · intro M resp d h
    rw [rapidMakeRequest, rapidGo, h]
  · intro M resp sig hresp hcode
    rw [metaMakeRequest, metaGo, hresp]
    simp [hcode]
  · intro M resp sig d hM hresp1 hcode hresp2
    obtain ⟨r, hr⟩ : ∃ r, M - 1 = r + 1 := ⟨M - 2, by omega⟩
    have hinner : metaGo resp r (1 + 1) = (.ok d, []) := by
      rw [metaGo, hresp2]
    rw [metaMakeRequest, hr, metaGo, hresp1]
    simp [hcode, hinner]
  · intro M resp hresp
    rw [metaMakeRequest, metaGo, hresp]
    rcases M - 1 with _ | r <;> simp

/-- Witness for claim C5: the amended statement at concrete inputs — an
always-failing RapidAPI call with budget 3 sleeps exactly [1000, 2000],
and a Meta permission error is thrown with no backoff slept. -/
theorem claim_C5_witness :
    rapidMakeRequest 3 alwaysServerError 1 = (.error .serverError, [1000, 2000]) ∧
    metaMakeRequest 3 alwaysPermissionError 1 = (.error .permissionError, []) := by
  constructor
  · exact (claim_C5_amended.1 3 RApiError.serverError alwaysServerError (by omega)
      (fun k => rfl)).trans rfl
  · exact claim_C5_amended.2.2.1 3 alwaysPermissionError
      { code := some 10, connAborted := false } rfl rfl

/-! ### Strategy-level fetch behaviour (`getRecentPosts`) -/

/-- `TikTokWebStrategy.getRecentPosts`: the browser phase either throws
(`.error`), finds no post grid (`.ok none`), or extracts posts
(`.ok (some ps)`); the catch block logs the classified error and returns
an empty list. -/
def tikTokWebGetRecentPosts (outcome : Except RApiError (Option (List Post))) :
    Except RApiError (List Post) :=
  match outcome with
  | .ok none => .ok []
  | .ok (some ps) => .ok ps
  | .error _ => .ok []

/-- A media item from the Meta Graph API listing call. -/
structure Media where
  id : String := ""
  permalink : JsVal := .undef
  timestamp : JsVal := .undef
  like_count : JsVal := .undef
  comments_count : JsVal := .undef
deriving DecidableEq

/-- `InstagramMetaStrategy.transformPost`: the insights (views) value is
fetched by a second call per item but the returned record carries no
views field — the source drops the local `views` binding. -/
def transformMetaPost (_views : ℚ) (media : Media) : Post :=
  { postLink := if media.permalink.truthy then media.permalink else .str "",
    postedDate := if media.timestamp.truthy then media.timestamp else .str "",
    comments := if media.comments_count.truthy then media.comments_count else .num 0,
    likes := if media.like_count.truthy then media.like_count else .num 0 }

/-- The envelope of the Meta media listing response (`response.data` may
be absent). -/
structure MediaResponse where
  data : Option (List Media)
deriving DecidableEq

/-- `InstagramMetaStrategy.getRecentPosts`: empty list when the listing
has no data, transformed posts otherwise; a `makeRequest` failure is
logged and **rethrown** (`throw error`). -/
def instagramMetaGetRecentPosts (request : Except MetaFailure MediaResponse)
    (insights : Media → ℚ) : Except MetaFailure (List Post) :=
  match request with
  | .error e => .error e
  | .ok resp =>
    match resp.data with
    | none => .ok []
    | some media =>
      if media.isEmpty then .ok []
      else .ok (media.map fun m => transformMetaPost (insights m) m)

/-- `BaseScraper.getRecentPosts`: delegate to the strategy and coerce a
null/undefined result to `[]`; any strategy error is caught, logged and
turned into an empty list. -/
def baseScraperGetRecentPosts {ε : Type} (strategyResult : Except ε (Option (List Post))) :
    Except ε (List Post) :=
  match strategyResult with
  | .ok posts => .ok (posts.getD [])
  | .error _ => .ok []

/-- An insights oracle returning zero impressions for every media. -/
def zeroInsights : Media → ℚ := fun _ => 0

/-- Claim C6, counterexample: `InstagramMetaStrategy.getRecentPosts`
rethrows the classified error when the listing call fails — e.g. a rate
limit that exhausted its retries — instead of returning an empty list. -/
theorem claim_C6_counterexample :
    instagramMetaGetRecentPosts (.error MetaFailure.exhausted) zeroInsights
      = .error MetaFailure.exhausted ∧
    instagramMetaGetRecentPosts (.error MetaFailure.exhausted) zeroInsights ≠ .ok [] := by
  constructor
  · rfl
  · intro h
    exact Except.noConfusion h

/-- Claim C6, amended: the no-throw guarantee holds at the
`BaseScraper.getRecentPosts` wrapper, which catches every strategy error
and returns an empty list (and coerces a null strategy result to `[]`);
the TikTok web strategy also returns `[]` on every failure by itself.
`InstagramMetaStrategy.getRecentPosts`, however, rethrows its classified
errors and relies on the wrapper for containment. -/
theorem claim_C6_amended :
    (∀ (ε : Type) (r : Except ε (Option (List Post))),
        ∃ ps, baseScraperGetRecentPosts r = .ok ps) ∧
    (∀ (ε : Type) (e : ε),
        baseScraperGetRecentPosts (.error e : Except ε (Option (List Post))) = .ok []) ∧
    (∀ e : RApiError, tikTokWebGetRecentPosts (.error e) = .ok []) ∧
    (∀ r : Except RApiError (Option (List Post)),
        ∃ ps, tikTokWebGetRecentPosts r = .ok ps) ∧
    (∀ (e : MetaFailure) (insights : Media → ℚ),
        instagramMetaGetRecentPosts (.error e) insights = .error e) := by
  refine ⟨?_, ?_, ?_, ?_, ?_⟩
  · intro ε r
    rcases r with e | d
    · exact ⟨[], rfl⟩
    · exact ⟨d.getD [], rfl⟩
  · intro ε e
    rfl
  · intro e
    rfl
  · intro r
    rcases r with e | (_ | d)
    · exact ⟨[], rfl⟩
    · exact ⟨[], rfl⟩
    · exact ⟨d, rfl⟩
  · intro e insights
    rfl

/-! ### Normalization and the orchestrating job -/

/-- `normalizePost` from `utils/dataProcessor.js`: the output object has
exactly the fields username, platform, postLink, postedDate, comments
(falling back to the legacy `share` field) and likes — note there is no
views field, so `views` is `undefined` on every normalized post.  `now`
is the `new Date().toISOString()` fallback for a missing date. -/
def normalizePost (post : Post) (username platform : String) (now : String) : Post :=
  { username := username,
    platform := if (JsVal.str platform).truthy then .str platform
      else if post.platform.truthy then post.platform else .str "",
    postLink := if post.postLink.truthy then post.postLink
      else if post.url.truthy then post.url else .str "",
    postedDate := if post.postedDate.truthy then post.postedDate
      else if post.date.truthy then post.date else .str now,
    comments := if post.comments ≠ JsVal.undef then jsNumberVal post.comments
      else if post.share ≠ JsVal.undef then jsNumberVal post.share else .num 0,
    likes := if post.likes ≠ JsVal.undef then jsNumberVal post.likes else .num 0 }

/-- A tracked identity row. -/
structure Influencer where
  username : String
  platform : String
deriving DecidableEq

/-- The per-influencer result object of `ScrapingJob.processInfluencer`. -/
structure ProcResult where
  username : String
  platform : String
  success : Bool
  error : Option String := none
  averageViews : Option ℤ := none
  postsCount : ℕ := 0
  toAppend : List Post := []
  toUpdate : List Post := []
deriving DecidableEq

/-- The platforms `getScraperForPlatform` accepts (it throws for any
other value, caught by the `processInfluencer` try block). -/
def supportedPlatform (platform : String) : Bool :=
  let normalizedPlatform := lowerTrim platform
  normalizedPlatform == "tiktok".toList || normalizedPlatform == "tik tok".toList ||
    normalizedPlatform == "instagram".toList || normalizedPlatform == "ig".toList

/-- `ScrapingJob.processInfluencer`: fetch (the oracle `fetched` stands
for `scraper.getRecentPosts`, `.error` for anything thrown inside the
try block), normalize, select recent posts, compute the average,
deduplicate against this user's existing posts; any failure degrades to
a result record with `success := false` and zero posts. -/
def processInfluencer (influencer : Influencer) (existingPosts : List Post)
    (fetched : Except String (List Post)) (now : String) : ProcResult :=
  let username := influencer.username
  let platform := influencer.platform
  if !supportedPlatform platform then
    { username := username, platform := platform, success := false,
      error := some ("Unsupported platform: " ++ platform) }
  else
    match fetched with
    | .error msg =>
      { username := username, platform := platform, success := false, error := some msg }
    | .ok posts =>
      if posts.isEmpty then
        { username := username, platform := platform, success := false,
          error := some "No posts found" }
      else
        let normalizedPosts := posts.map fun post => normalizePost post username platform now
        let recentPosts := filterLast10Posts normalizedPosts 10
        let averageViews := calculateAverageViews recentPosts
        let userExistingPosts := existingPosts.filter fun p => p.username == username
        let dedup := deduplicatePosts userExistingPosts normalizedPosts
        { username := username, platform := platform, success := true,
          averageViews := averageViews, postsCount := posts.length,
          toAppend := dedup.1, toUpdate := dedup.2 }

/-- One entry of the summary's `errors` list. -/
structure FailureEntry where
  username : String
  platform : String
  error : Option String
deriving DecidableEq

/-- The aggregation object `ScrapingJob.run` produces (the elapsed
duration string is real time and is left out of the model). -/
structure Summary where
  totalInfluencers : ℕ
  successCount : ℕ
  failureCount : ℕ
  totalPosts : ℕ
  newPosts : ℕ
  updatedPosts : ℕ
  errors : List FailureEntry
deriving DecidableEq

/-- The summary `ScrapingJob.run` builds once every influencer has been
processed. -/
def jobSummary (influencers : List Influencer) (existingPosts : List Post)
    (fetch : Influencer → Except String (List Post)) (now : String) : Summary :=
  let results := influencers.map fun i => processInfluencer i existingPosts (fetch i) now
  let successfulResults := results.filter fun r => r.success
  let failedResults := results.filter fun r => !r.success
  let allPostsToAppend := (successfulResults.map fun r => r.toAppend).flatten
  let allPostsToUpdate := (successfulResults.map fun r => r.toUpdate).flatten
  { totalInfluencers := influencers.length,
    successCount := successfulResults.length,
    failureCount := failedResults.length,
    totalPosts := (successfulResults.map fun r => r.postsCount).sum,
    newPosts := allPostsToAppend.length,
    updatedPosts := allPostsToUpdate.length,
    errors := failedResults.map fun r => ⟨r.username, r.platform, r.error⟩ }

/-- `ScrapingJob.run`: throws only when no influencer is configured;
otherwise every influencer is processed (bounded-concurrency fan-out,
order-insensitive: modelled as a map) and a summary is always produced,
whatever the per-influencer outcomes. -/
def runJob (influencers : List Influencer) (existingPosts : List Post)
    (fetch : Influencer → Except String (List Post)) (now : String) : Except String Summary :=
  if influencers.isEmpty then .error "No influencers found in data file"
  else .ok (jobSummary influencers existingPosts fetch now)

lemma calcAvg_none_of_views_undef (l : List Post) (h : ∀ p ∈ l, p.views = JsVal.undef) :
    calculateAverageViews l = none := by
  have hf : l.filter viewsValid = [] := by
    rw [List.filter_eq_nil_iff]
    intro p hp
    simp [viewsValid, h p hp, jsToNumber]
  unfold calculateAverageViews
  simp only [hf]
  simp

lemma mem_of_mem_filterLast10 {x : Post} {l : List Post} {n : ℕ}
    (h : x ∈ filterLast10Posts l n) : x ∈ l := by
  unfold filterLast10Posts at h
  by_cases hl : l.isEmpty
  · rw [if_pos hl] at h
    simp at h
  · rw [if_neg hl] at h
    exact (jsSort_perm l).mem_iff.mp (List.mem_of_mem_take h)

/-- Claim C4: `normalizePost` never outputs a views field, so inside
`processInfluencer` the computed `averageViews` is `null` for every
influencer and every non-empty fetched post list — `calculateAverageViews`
reads `post.views`, finds `undefined` on every normalized post, and no
valid entry remains. -/
theorem claim_C4_averageViews_null :
    (∀ (post : Post) (username platform now : String),
        (normalizePost post username platform now).views = JsVal.undef) ∧
    (∀ (influencer : Influencer) (existingPosts posts : List Post) (now : String),
        posts ≠ [] →
        (processInfluencer influencer existingPosts (.ok posts) now).averageViews = none) := by
  refine ⟨fun post username platform now => rfl, ?_⟩
  intro influencer existingPosts posts now hne
  unfold processInfluencer
  rcases hsupp : supportedPlatform influencer.platform with _ | _
  · simp [hsupp]
  · rcases posts with _ | ⟨p, ps⟩
    · exact absurd rfl hne
    · simp only [hsupp, Bool.not_true, Bool.false_eq_true, if_false, List.isEmpty_cons]
      apply calcAvg_none_of_views_undef
      intro x hx
      obtain ⟨y, _, rfl⟩ := List.mem_map.mp (mem_of_mem_filterLast10 hx)
      rfl

/-- Witness for claim C4: a concrete influencer with one fetched post
gets a `null` average. -/
theorem claim_C4_witness :
    (processInfluencer ⟨"alice", "tiktok"⟩ [] (.ok [postD1]) "2024-01-01").averageViews
      = none :=
  claim_C4_averageViews_null.2 ⟨"alice", "tiktok"⟩ [] [postD1] "2024-01-01" (by decide)

lemma processInfluencer_error (influencer : Influencer) (existingPosts : List Post)
    (msg : String) (now : String) (hs : supportedPlatform influencer.platform = true) :
    processInfluencer influencer existingPosts (.error msg) now
      = { username := influencer.username, platform := influencer.platform,
          success := false, error := some msg } := by
  simp [processInfluencer, hs]

lemma filter_length_add {α : Type} (p : α → Bool) (l : List α) :
    (l.filter p).length + (l.filter fun a => !p a).length = l.length := by
  induction l with
  | nil => rfl
  | cons x xs ih =>
    rcases h : p x with _ | _
    · simp only [List.filter_cons, h, Bool.not_false, if_true, Bool.false_eq_true, if_false,
        List.length_cons]
      omega
    · simp only [List.filter_cons, h, Bool.not_true, if_true, Bool.false_eq_true, if_false,
        List.length_cons]
      omega

lemma length_filter_map_comm {α β : Type} (f : α → β) (p : β → Bool) (l : List α) :
    ((l.map f).filter p).length = (l.filter fun a => p (f a)).length := by
  induction l with
  | nil => rfl
  | cons x xs ih =>
    rcases h : p (f x) with _ | _ <;>
      simp only [List.map_cons, List.filter_cons, h, Bool.false_eq_true, if_false, if_true,
        List.length_cons, ih]

/-- Claim C7: a failure while processing one identity becomes a
per-identity failure record (success = false, zero posts, the error
message recorded), the job still produces a summary covering every
influencer — success plus failure counts add up to the whole batch, the
success count depends only on each sibling's own outcome — and the
failing identity appears in the summary's errors list. -/
theorem claim_C7_isolation (influencers : List Influencer) (existingPosts : List Post)
    (fetch : Influencer → Except String (List Post)) (now : String)
    (i : Influencer) (msg : String)
    (hne : influencers ≠ [])
    (hmem : i ∈ influencers)
    (hfail : fetch i = .error msg)
    (hsupp : supportedPlatform i.platform = true) :
    runJob influencers existingPosts fetch now
      = .ok (jobSummary influencers existingPosts fetch now) ∧
    (jobSummary influencers existingPosts fetch now).totalInfluencers = influencers.length ∧
    (jobSummary influencers existingPosts fetch now).successCount
        + (jobSummary influencers existingPosts fetch now).failureCount
      = influencers.length ∧
    (FailureEntry.mk i.username i.platform (some msg))
      ∈ (jobSummary influencers existingPosts fetch now).errors ∧
    (jobSummary influencers existingPosts fetch now).successCount
      = (influencers.filter fun j =>
          (processInfluencer j existingPosts (fetch j) now).success).length ∧
    processInfluencer i existingPosts (fetch i) now
      = { username := i.username, platform := i.platform, success := false,
          error := some msg } := by
  have hpe : processInfluencer i existingPosts (fetch i) now
      = { username := i.username, platform := i.platform, success := false,
          error := some msg } := by
    rw [hfail]
    exact processInfluencer_error i existingPosts msg now hsupp
  refine ⟨?_, rfl, ?_, ?_, ?_, hpe⟩
  · rw [runJob, if_neg (by simpa using hne)]
  · simp only [jobSummary]
    rw [filter_length_add]
    simp
  · simp only [jobSummary]
    refine List.mem_map.mpr ⟨processInfluencer i existingPosts (fetch i) now, ?_, ?_⟩
    · refine List.mem_filter.mpr ⟨List.mem_map_of_mem _ hmem, ?_⟩
      rw [hpe]
      rfl
    · rw [hpe]
  · simp only [jobSummary]
    exact length_filter_map_comm _ _ _

/-- A fetch oracle where only the user "alice" fails. -/
def demoFetch : Influencer → Except String (List Post) :=
  fun i => if i.username = "alice" then .error "boom" else .ok [postD1]

/-- Witness for claim C7: in a two-influencer batch where alice's fetch
throws, the produced summary's errors list records alice's failure. -/
theorem claim_C7_witness :
    FailureEntry.mk "alice" "tiktok" (some "boom")
      ∈ (jobSummary [⟨"alice", "tiktok"⟩, ⟨"bob", "instagram"⟩] [] demoFetch
          "2024-01-01").errors :=
  (claim_C7_isolation [⟨"alice", "tiktok"⟩, ⟨"bob", "instagram"⟩] [] demoFetch "2024-01-01"
    ⟨"alice", "tiktok"⟩ "boom" (by decide) (by decide) rfl (by decide)).2.2.2.1
